import Mathlib

/-!
Verification of `cli/src/git_util.rs` (git utilities of the jj CLI):
the Assuan response decoder, the pinentry secure-prompt agent, the SSH key
locator, the credential-resolution callbacks, the import/export reporters and
the `~/` path expander.  Rust strings and byte slices are modelled as
`List Nat` (byte values) at the byte-oriented layer, and as Lean `String`
at the UI/reporting layer.
-/

namespace GitUtil

/-! ## Assuan response decoder (`decode_assuan_data`) -/

/-- Value of one ASCII hex digit, as accepted by `char::to_digit(16)`:
`0`-`9`, `a`-`f`, `A`-`F`. -/
def hexDigitVal (b : Nat) : Option Nat :=
  if 48 ≤ b ∧ b ≤ 57 then some (b - 48)
  else if 97 ≤ b ∧ b ≤ 102 then some (b - 87)
  else if 65 ≤ b ∧ b ≤ 70 then some (b - 55)
  else none

/-- `u8::from_str_radix(s, 16)` on the two-byte slice `[b1, b2]`, composed with
the `std::str::from_utf8` check the source performs first.  Rust's unsigned
integer parser accepts an optional leading `+` sign followed by at least one
digit; a byte ≥ 0x80 in the pair is never a digit (and makes the pair invalid
UTF-8 or a non-digit two-byte character), so the parse fails on it either way. -/
def parseHexByte (b1 b2 : Nat) : Option Nat :=
  if b1 = 43 then hexDigitVal b2
  else
    match hexDigitVal b1, hexDigitVal b2 with
    | some d1, some d2 => some (16 * d1 + d2)
    | _, _ => none

/-- Is `b` a UTF-8 continuation byte (`0x80`-`0xBF`)? -/
def isUtf8Cont (b : Nat) : Bool := 128 ≤ b && b ≤ 191

/-- UTF-8 validity of a byte sequence, as checked by Rust's
`String::from_utf8` (RFC 3629: no overlong forms, no surrogates,
code points ≤ U+10FFFF). -/
def isValidUtf8 : List Nat → Bool
  | [] => true
  | b :: rest =>
    if b ≤ 127 then isValidUtf8 rest
    else if 194 ≤ b ∧ b ≤ 223 then
      match rest with
      | c1 :: rest2 => isUtf8Cont c1 && isValidUtf8 rest2
      | [] => false
    else if b = 224 then
      match rest with
      | c1 :: c2 :: rest2 =>
        (160 ≤ c1 && c1 ≤ 191) && isUtf8Cont c2 && isValidUtf8 rest2
      | _ => false
    else if (225 ≤ b ∧ b ≤ 236) ∨ b = 238 ∨ b = 239 then
      match rest with
      | c1 :: c2 :: rest2 => isUtf8Cont c1 && isUtf8Cont c2 && isValidUtf8 rest2
      | _ => false
    else if b = 237 then
      match rest with
      | c1 :: c2 :: rest2 =>
        (128 ≤ c1 && c1 ≤ 159) && isUtf8Cont c2 && isValidUtf8 rest2
      | _ => false
    else if b = 240 then
      match rest with
      | c1 :: c2 :: c3 :: rest2 =>
        (144 ≤ c1 && c1 ≤ 191) && isUtf8Cont c2 && isUtf8Cont c3 && isValidUtf8 rest2
      | _ => false
    else if 241 ≤ b ∧ b ≤ 243 then
      match rest with
      | c1 :: c2 :: c3 :: rest2 =>
        isUtf8Cont c1 && isUtf8Cont c2 && isUtf8Cont c3 && isValidUtf8 rest2
      | _ => false
    else if b = 244 then
      match rest with
      | c1 :: c2 :: c3 :: rest2 =>
        (128 ≤ c1 && c1 ≤ 143) && isUtf8Cont c2 && isUtf8Cont c3 && isValidUtf8 rest2
      | _ => false
    else false

/-- The escape-decoding loop of `decode_assuan_data`: scan bytes left to
right; a byte other than `%` (37) is copied; `%` is followed by a two-byte
slice that must parse as a base-16 `u8` (`encoded.get(i..i + 2)?` fails on
truncation, `from_utf8`/`from_str_radix` failure aborts with `None`). -/
def decodeBytes : List Nat → Option (List Nat)
  | [] => some []
  | b :: rest =>
    if b = 37 then
      match rest with
      | b1 :: b2 :: rest2 =>
        match parseHexByte b1 b2 with
        | some v => (decodeBytes rest2).map (fun d => v :: d)
        | none => none
      | _ => none
    else (decodeBytes rest).map (fun d => b :: d)

/-- `decode_assuan_data`: escape-decode the line, then require the decoded
bytes to be valid UTF-8 (`String::from_utf8(decoded).ok()`). -/
def decodeAssuanData (encoded : List Nat) : Option (List Nat) :=
  match decodeBytes encoded with
  | some decoded => if isValidUtf8 decoded then some decoded else none
  | none => none

/-- Formalisation of the spec's notion of a malformed escape in a line,
under the same left-to-right escape-consuming scan the decoder performs:
a `%` truncated by end of input, or a `%` whose two following bytes do not
parse as a base-16 byte. -/
def specHasMalformedEscape : List Nat → Bool
  | [] => false
  | b :: rest =>
    if b = 37 then
      match rest with
      | b1 :: b2 :: rest2 =>
        match parseHexByte b1 b2 with
        | some _ => specHasMalformedEscape rest2
        | none => true
      | _ => true
    else specHasMalformedEscape rest

/-- Uppercase ASCII hex digit for a value `d < 16`. -/
def hexChar (d : Nat) : Nat := if d < 10 then 48 + d else 55 + d

/-- Reference percent-escaping of the Assuan protocol: `%` (37), CR (13) and
LF (10) are escaped as `%` followed by two uppercase hex digits; every other
byte is emitted literally. -/
def encodeAssuanData : List Nat → List Nat
  | [] => []
  | b :: rest =>
    if b = 37 ∨ b = 13 ∨ b = 10 then
      37 :: hexChar (b / 16) :: hexChar (b % 16) :: encodeAssuanData rest
    else b :: encodeAssuanData rest

theorem decodeBytes_eq_none_iff (l : List Nat) :
    decodeBytes l = none ↔ specHasMalformedEscape l = true := by
  induction l using decodeBytes.induct <;>
    rw [decodeBytes.eq_def, specHasMalformedEscape.eq_def] <;>
    simp_all [Option.map_eq_none']

theorem decodeBytes_encodeAssuanData (l : List Nat) :
    decodeBytes (encodeAssuanData l) = some l := by
  induction l with
  | nil => rfl
  | cons b rest ih =>
    by_cases hb : b = 37 ∨ b = 13 ∨ b = 10
    · rcases hb with hb | hb | hb <;> subst hb <;>
        rw [encodeAssuanData.eq_def] <;>
        simp [decodeBytes, parseHexByte, hexDigitVal, hexChar, ih]
    · have hb37 : b ≠ 37 := fun h => hb (Or.inl h)
      have hb13 : b ≠ 13 := fun h => hb (Or.inr (Or.inl h))
      have hb10 : b ≠ 10 := fun h => hb (Or.inr (Or.inr h))
      rw [encodeAssuanData.eq_def]
      simp only [hb37, hb13, hb10, false_or, if_false]
      rw [decodeBytes.eq_def]
      simp [hb37, ih]

/-- Claim C1 (amended): if the line contains a `%` escape whose two following
bytes do not parse as a base-16 byte numeral (Rust's `u8::from_str_radix`
also accepts a leading `+` sign), or a `%` escape truncated by end of input,
or the escape-decoded byte sequence is not valid UTF-8, then
`decode_assuan_data` returns `none`, with no partial output. -/
theorem decode_assuan_all_or_nothing (l : List Nat)
    (h : specHasMalformedEscape l = true ∨
         ∃ d, decodeBytes l = some d ∧ isValidUtf8 d = false) :
    decodeAssuanData l = none := by
  rcases h with h | ⟨d, hd, hv⟩
  · unfold decodeAssuanData
    rw [(decodeBytes_eq_none_iff l).mpr h]
  · unfold decodeAssuanData
    rw [hd]
    simp [hv]

/-- Witness for C1 (amended): the truncated escape `"a%"` fails to decode. -/
theorem decode_assuan_all_or_nothing_witness :
    decodeAssuanData [97, 37] = none :=
  decode_assuan_all_or_nothing [97, 37] (Or.inl (by decide))

/-- Counterexample to C1 as stated: in the line `"abc%+5"`, the `%` escape is
followed by `'+'` (43) and `'5'` (53), which are not both hex digits
(`hexDigitVal 43 = none`), yet the decode succeeds with `some "abc\x05"`,
because Rust's `u8::from_str_radix` accepts a leading `+` sign. -/
theorem decode_assuan_nonhex_escape_succeeds :
    hexDigitVal 43 = none ∧
    decodeAssuanData [97, 98, 99, 37, 43, 53] = some [97, 98, 99, 5] := by
  decide

/-- Claim C3: decoding the reference percent-escaped encoding of any text
`s` (a valid UTF-8 byte sequence) yields exactly `s`. -/
theorem decode_encode_roundtrip (s : List Nat) (h : isValidUtf8 s = true) :
    decodeAssuanData (encodeAssuanData s) = some s := by
  unfold decodeAssuanData
  rw [decodeBytes_encodeAssuanData]
  simp [h]

/-- Witness for C3 at the concrete text `"hi%"` (bytes `[104, 105, 37]`). -/
theorem decode_encode_roundtrip_witness :
    decodeAssuanData (encodeAssuanData [104, 105, 37]) = some [104, 105, 37] :=
  decode_encode_roundtrip [104, 105, 37] (by decide)

/-! ## Secure prompt agent (`pinentry_get_pw`) -/

/-- Does the line start with the response marker `"D "` (bytes 68, 32)? -/
def startsWithD : List Nat → Bool
  | 68 :: 32 :: _ => true
  | _ => false

/-- `str::split('\n')` on the captured output: split at every LF byte (10),
keeping empty pieces; the result is always non-empty. -/
def splitNewline : List Nat → List (List Nat)
  | [] => [[]]
  | b :: rest =>
    if b = 10 then [] :: splitNewline rest
    else
      match splitNewline rest with
      | l :: ls => (b :: l) :: ls
      | [] => [[b]]

/-- The scanning loop of `pinentry_get_pw`: skip lines that do not start
with `"D "`; at the first line that does, `split_at(2)` and return the
decode of the remainder immediately (even when that decode is `none`). -/
def scanResponse : List (List Nat) → Option (List Nat)
  | [] => none
  | line :: rest =>
    if startsWithD line then decodeAssuanData (line.drop 2)
    else scanResponse rest

/-- `pinentry_get_pw`, with the subprocess interaction abstracted into its
observable effect: `spawnOut` is `some out` when spawning the helper, writing
the four-line request and reading the full standard output all succeed and
yield the bytes `out`, and `none` when any of those steps fails (each
`.ok()?` early-returns `None`).  On success the captured output is split
into lines and scanned for the first `"D "` response line. -/
def pinentry_get_pw (spawnOut : Option (List Nat)) : Option (List Nat) :=
  match spawnOut with
  | none => none
  | some out => scanResponse (splitNewline out)

theorem scanResponse_append (pre : List (List Nat)) (dline : List Nat)
    (post : List (List Nat)) (hpre : ∀ l ∈ pre, startsWithD l = false)
    (hd : startsWithD dline = true) :
    scanResponse (pre ++ dline :: post) = decodeAssuanData (dline.drop 2) := by
  induction pre with
  | nil => simp [scanResponse, hd]
  | cons l ls ih =>
    have hl : startsWithD l = false := hpre l (List.mem_cons_self l ls)
    simp only [List.cons_append, scanResponse, hl, Bool.false_eq_true, if_false]
    exact ih fun x hx => hpre x (List.mem_cons_of_mem l hx)

theorem scanResponse_none (lines : List (List Nat))
    (h : ∀ l ∈ lines, startsWithD l = false) : scanResponse lines = none := by
  induction lines with
  | nil => rfl
  | cons l ls ih =>
    have hl : startsWithD l = false := h l (List.mem_cons_self l ls)
    simp only [scanResponse, hl, Bool.false_eq_true, if_false]
    exact ih fun x hx => h x (List.mem_cons_of_mem l hx)

/-- Claim C4: the secure prompt agent returns the decode of the first `"D "`
line of the helper output and does not scan later lines; a failed spawn, an
output with no `"D "` line, or a failed decode of that first line all yield
`none` rather than an error. -/
theorem pinentry_first_response (out : List Nat) (pre post : List (List Nat))
    (dline : List Nat) (hsplit : splitNewline out = pre ++ dline :: post)
    (hpre : ∀ l ∈ pre, startsWithD l = false)
    (hd : startsWithD dline = true) :
    pinentry_get_pw (some out) = decodeAssuanData (dline.drop 2) ∧
    pinentry_get_pw none = none ∧
    ∀ out2, (∀ l ∈ splitNewline out2, startsWithD l = false) →
      pinentry_get_pw (some out2) = none := by
  refine ⟨?_, rfl, fun out2 h2 => ?_⟩
  · show scanResponse (splitNewline out) = decodeAssuanData (dline.drop 2)
    rw [hsplit]
    exact scanResponse_append pre dline post hpre hd
  · show scanResponse (splitNewline out2) = none
    exact scanResponse_none _ h2

/-- Witness for C4: helper output `"OK\nD hi%25\nOK"`; the first `"D "` line
decodes to `"hi%"`, and the trailing `"OK"` line is never reached. -/
theorem pinentry_first_response_witness :
    pinentry_get_pw
        (some [79, 75, 10, 68, 32, 104, 105, 37, 50, 53, 10, 79, 75]) =
      some [104, 105, 37] := by
  have h := pinentry_first_response
    [79, 75, 10, 68, 32, 104, 105, 37, 50, 53, 10, 79, 75]
    [[79, 75]] [[79, 75]] [68, 32, 104, 105, 37, 50, 53]
    (by decide) (by decide) (by decide)
  rw [h.1]
  decide

/-! ## Terminal prompter and credential resolver (`terminal_get_pw`,
`get_pw` of `with_remote_git_callbacks`) -/

/-- The shared interaction surface: `prompt` models `Ui::prompt(...).ok()`
and `promptPassword` models `Ui::prompt_password(...).ok()`, each mapping
the displayed label to the user's response (`none` when the interaction
surface is unavailable or closed). -/
structure Ui where
  prompt : String → Option String
  promptPassword : String → Option String

/-- The label `format!("Passphrase for {url}: ")`. -/
def pwPromptLabel (url : String) : String := "Passphrase for " ++ url ++ ": "

/-- `terminal_get_pw`: issue one masked prompt labeled with the URL.  The
second component is the list of password-prompt labels issued during the
call (the observable interaction trace). -/
def terminal_get_pw (ui : Ui) (url : String) : Option String × List String :=
  (ui.promptPassword (pwPromptLabel url), [pwPromptLabel url])

/-- The `get_pw` closure installed as `callbacks.get_password`:
`pinentry_get_pw(url).or_else(|| terminal_get_pw(*ui.lock().unwrap(), url))`.
`pinRes` is the value produced by `pinentry_get_pw url` in the ambient
environment; `or_else` runs the terminal strategy only when it is `none`.
The second component is the trace of terminal password prompts issued. -/
def get_pw (ui : Ui) (pinRes : Option String) (url _username : String) :
    Option String × List String :=
  match pinRes with
  | some pw => (some pw, [])
  | none => terminal_get_pw ui url

/-- Claim C2: the pinentry strategy is tried first; the terminal masked
prompt is issued exactly once, with a label containing the literal URL, if
and only if pinentry yields nothing; if both strategies yield nothing the
overall result is `none`. -/
theorem get_pw_strategy_chain (ui : Ui) (pinRes : Option String)
    (url username : String) :
    (∀ pw, pinRes = some pw →
        get_pw ui pinRes url username = (some pw, [])) ∧
    (pinRes = none →
        (get_pw ui pinRes url username).2 = [pwPromptLabel url] ∧
        (∃ a b, pwPromptLabel url = a ++ url ++ b) ∧
        (get_pw ui pinRes url username).1 =
          ui.promptPassword (pwPromptLabel url)) := by
  constructor
  · rintro pw rfl
    rfl
  · rintro rfl
    exact ⟨rfl, ⟨"Passphrase for ", ": ", rfl⟩, rfl⟩

/-- Witness for C2: with a closed interaction surface and a pinentry that
yielded nothing, the overall result is no credential after exactly one
terminal prompt. -/
theorem get_pw_strategy_chain_witness :
    get_pw ⟨fun _ => none, fun _ => none⟩ none "https://example.com" "u" =
      (none, [pwPromptLabel "https://example.com"]) := by
  have h := get_pw_strategy_chain ⟨fun _ => none, fun _ => none⟩ none
    "https://example.com" "u"
  have h2 := h.2 rfl
  calc get_pw ⟨fun _ => none, fun _ => none⟩ none "https://example.com" "u"
      = ((get_pw ⟨fun _ => none, fun _ => none⟩ none "https://example.com" "u").1,
         (get_pw ⟨fun _ => none, fun _ => none⟩ none "https://example.com" "u").2) := rfl
    _ = (none, [pwPromptLabel "https://example.com"]) := by rw [h2.1, h2.2.2]

/-! ## SSH key locator (`get_ssh_keys`) -/

/-- `Path::join` on Unix: an absolute right operand replaces the base;
otherwise the components are joined with a `/` separator (none added when
the base is empty or already ends with `/`). -/
def pathJoin (base rel : String) : String :=
  if rel.startsWith "/" then rel
  else if base = "" ∨ base.endsWith "/" then base ++ rel
  else base ++ "/" ++ rel

/-- `get_ssh_keys`: `home_dir` models `dirs::home_dir()` and `is_file`
models `Path::is_file` on the ambient filesystem.  The three fixed
filenames are probed under `home/.ssh` in source order; the `_username`
argument is ignored. -/
def get_ssh_keys (home_dir : Option String) (is_file : String → Bool)
    (_username : String) : List String :=
  match home_dir with
  | none => []
  | some home =>
    let ssh_dir := pathJoin home ".ssh"
    ["id_ed25519_sk", "id_ed25519", "id_rsa"].filterMap fun filename =>
      let key_path := pathJoin ssh_dir filename
      if is_file key_path then some key_path else none

theorem filterMap_if_eq_filter_map {α β : Type} (f : α → β) (p : β → Bool)
    (l : List α) :
    (l.filterMap fun a => if p (f a) then some (f a) else none) =
      (l.map f).filter p := by
  induction l with
  | nil => rfl
  | cons a as ih =>
    by_cases h : p (f a) <;>
      simp [List.filterMap_cons, List.filter_cons, h, ih]

/-- Claim C5: the SSH key locator returns exactly those of the three fixed
paths under `home/.ssh` that are regular files, in the fixed priority order
`id_ed25519_sk`, `id_ed25519`, `id_rsa`; when no home directory can be
determined it returns the empty list. -/
theorem get_ssh_keys_fixed_order (home : String) (is_file : String → Bool)
    (u : String) :
    get_ssh_keys none is_file u = [] ∧
    get_ssh_keys (some home) is_file u =
      (["id_ed25519_sk", "id_ed25519", "id_rsa"].map
        (fun f => pathJoin (pathJoin home ".ssh") f)).filter is_file :=
  ⟨rfl, filterMap_if_eq_filter_map (fun f => pathJoin (pathJoin home ".ssh") f)
    is_file ["id_ed25519_sk", "id_ed25519", "id_rsa"]⟩

/-- Claim C10: the username argument has no effect on the SSH key
enumeration callback or on the passphrase-acquisition callback: for the
same filesystem, environment and URL, any two usernames give identical
outcomes. -/
theorem username_has_no_effect (home_dir : Option String)
    (is_file : String → Bool) (ui : Ui) (pinRes : Option String)
    (url u1 u2 : String) :
    get_ssh_keys home_dir is_file u1 = get_ssh_keys home_dir is_file u2 ∧
    get_pw ui pinRes url u1 = get_pw ui pinRes url u2 :=
  ⟨rfl, rfl⟩

/-! ## Synchronization result reporters (`print_git_import_stats`,
`print_failed_git_export`) -/

/-- Modelled from the spec: a structured error value with a display message
and a chain of causes, as walked through `std::error::Error::source` (the
concrete error types live in `jj_lib`, outside this crate). -/
inductive DynError where
  | leaf (msg : String)
  | node (msg : String) (source : DynError)

/-- The chain produced by `iter::successors(Some(err), |err| err.source())`:
the error's own message first, then one message per cause link, stopping at
the root cause. -/
def causeChain : DynError → List String
  | .leaf msg => [msg]
  | .node msg source => msg :: causeChain source

/-- Modelled from the spec: the reason of a failed reference export — either
specifically "could not set the reference" (`FailedRefExportReason::FailedToSet`)
or one of the other structural kinds, each displayable as an error with a
cause chain (`kind` distinguishes the other variants). -/
inductive FailedRefExportReason where
  | failedToSet (err : DynError)
  | otherReason (kind : Nat) (err : DynError)

/-- The reason viewed as the `&dyn error::Error` handed to the chain walk. -/
def reasonError : FailedRefExportReason → DynError
  | .failedToSet err => err
  | .otherReason _ err => err

/-- `matches!(reason, FailedRefExportReason::FailedToSet(_))`. -/
def isFailedToSet : FailedRefExportReason → Bool
  | .failedToSet _ => true
  | .otherReason _ _ => false

/-- Modelled from the spec: a failed reference export record — a reference
name paired with its failure reason (`jj_lib::git::FailedRefExport`). -/
structure FailedRefExport where
  name : String
  reason : FailedRefExportReason

/-- One report entry: two-space indent, the labeled reference name, then one
`": {err}"` segment per link of the cause chain, as written by the
formatter loop of `print_failed_git_export`. -/
def renderFailedRefExport (f : FailedRefExport) : String :=
  "  " ++ f.name ++
    String.join ((causeChain (reasonError f.reason)).map (fun err => ": " ++ err))

/-- The fixed hint paragraph of `print_failed_git_export`, verbatim. -/
def exportHintText : String :=
  "Hint: Git doesn't allow a branch name that looks like a parent directory of\nanother (e.g. `foo` and `foo/bar`). Try to rename the branches that failed to\nexport or their \"parent\" branches."

/-- `print_failed_git_export`, with the emitted lines collected in order:
nothing at all for an empty list; otherwise the warning header, one entry
per failure in the order supplied, and the fixed hint paragraph exactly when
some failure's reason is `FailedToSet`. -/
def print_failed_git_export (failed_branches : List FailedRefExport) :
    List String :=
  if failed_branches.isEmpty then []
  else
    "Failed to export some branches:" ::
      failed_branches.map renderFailedRefExport ++
        if failed_branches.any (fun failed => isFailedToSet failed.reason) then
          [exportHintText]
        else []

theorem renderFailedRefExport_head (f : FailedRefExport) :
    (renderFailedRefExport f).data.head? = some ' ' := by
  show (("  " ++ f.name ++ String.join _).data).head? = some ' '
  rw [String.data_append, String.data_append]
  rfl

theorem renderFailedRefExport_ne_hint (f : FailedRefExport) :
    renderFailedRefExport f ≠ exportHintText := by
  intro h
  have h1 := renderFailedRefExport_head f
  rw [h] at h1
  exact absurd h1 (by decide)

/-- Claim C6: the fixed hint paragraph is appended after all entries exactly
when some failure's reason is `FailedToSet`; for a non-empty list in which
no reason is of that kind, the hint is absent from the output. -/
theorem export_hint_iff (failed : List FailedRefExport) (h : failed ≠ []) :
    (failed.any (fun f => isFailedToSet f.reason) = true →
      (print_failed_git_export failed).getLast? = some exportHintText) ∧
    (failed.any (fun f => isFailedToSet f.reason) = false →
      exportHintText ∉ print_failed_git_export failed) := by
  have hne : failed.isEmpty = false := by
    cases failed with
    | nil => exact absurd rfl h
    | cons a as => rfl
  constructor
  · intro hany
    unfold print_failed_git_export
    rw [hne, hany]
    show (("Failed to export some branches:" ::
      failed.map renderFailedRefExport) ++ [exportHintText]).getLast? = _
    rw [List.getLast?_concat]
  · intro hany
    unfold print_failed_git_export
    rw [hne, hany]
    intro hmem
    simp only [Bool.false_eq_true, if_false, List.append_nil, List.mem_cons,
      List.mem_map] at hmem
    rcases hmem with hmem | ⟨f, _, hf⟩
    · exact absurd hmem.symm (by decide)
    · exact renderFailedRefExport_ne_hint f hf

/-- Witness for C6: a single failure with reason `FailedToSet` makes the
hint the last emitted line. -/
theorem export_hint_iff_witness :
    (print_failed_git_export
        [⟨"foo", .failedToSet (.leaf "could not set the reference")⟩]).getLast? =
      some exportHintText :=
  (export_hint_iff
      [⟨"foo", .failedToSet (.leaf "could not set the reference")⟩]
      (List.cons_ne_nil _ _)).1 rfl

/-- Claim C7: for a non-empty failure list the reporter emits the header and
then one entry per failure in the order supplied, and an entry whose reason
has cause chain `A → B → C` renders as the indented
`"name: A: B: C"` (the chain walked top-level reason first, one `": {err}"`
segment per link, down to the root cause). -/
theorem export_entries_in_order (failed : List FailedRefExport)
    (h : failed ≠ []) :
    ((print_failed_git_export failed).take (1 + failed.length) =
      "Failed to export some branches:" ::
        failed.map renderFailedRefExport) ∧
    (∀ name kind a b c,
      renderFailedRefExport
          ⟨name, .otherReason kind (.node a (.node b (.leaf c)))⟩ =
        "  " ++ (name ++ ": " ++ a ++ ": " ++ b ++ ": " ++ c)) := by
  have hne : failed.isEmpty = false := by
    cases failed with
    | nil => exact absurd rfl h
    | cons x xs => rfl
  constructor
  · unfold print_failed_git_export
    rw [hne]
    show (("Failed to export some branches:" ::
        failed.map renderFailedRefExport) ++ _).take
          (1 + failed.length) = _
    have hlen : ("Failed to export some branches:" ::
        failed.map renderFailedRefExport).length = 1 + failed.length := by
      simp [Nat.add_comm]
    rw [← hlen, List.take_left]
  · intro name kind a b c
    apply String.ext
    simp only [renderFailedRefExport, reasonError, causeChain, List.map_cons,
      List.map_nil, String.data_join, String.data_append, List.flatten,
      List.append_assoc, List.append_nil]

/-- Witness for C7: one failure named `"foo"` with cause chain
`"A" → "B" → "C"`. -/
theorem export_entries_in_order_witness :
    (print_failed_git_export
        [⟨"foo", .otherReason 0 (.node "A" (.node "B" (.leaf "C")))⟩]).take 2 =
      ["Failed to export some branches:",
       "  " ++ ("foo" ++ ": " ++ "A" ++ ": " ++ "B" ++ ": " ++ "C")] := by
  have h := export_entries_in_order
    [⟨"foo", .otherReason 0 (.node "A" (.node "B" (.leaf "C")))⟩]
    (List.cons_ne_nil _ _)
  have h1 := h.1
  rw [List.map_cons, List.map_nil, h.2 "foo" 0 "A" "B" "C"] at h1
  exact h1

/-- Modelled from the spec: the import outcome record
(`jj_lib::git::GitImportStats`), of which only the abandoned-commit set is
reported; commits are abstracted as numbers. -/
structure GitImportStats where
  abandoned_commits : List Nat

/-- `print_git_import_stats`, with the emitted lines collected: one
informational line holding the count when the abandoned-commit set is
non-empty, and nothing otherwise. -/
def print_git_import_stats (stats : GitImportStats) : List String :=
  if stats.abandoned_commits.isEmpty then []
  else
    ["Abandoned " ++ toString stats.abandoned_commits.length ++
      " commits that are no longer reachable."]

/-- Claim C8: the import reporter emits no output for an empty
abandoned-commit set, and exactly one line, containing the count, for a
non-empty one; no per-commit detail is ever emitted. -/
theorem import_stats_one_line (stats : GitImportStats) :
    (stats.abandoned_commits = [] → print_git_import_stats stats = []) ∧
    (stats.abandoned_commits ≠ [] →
      ∃ line, print_git_import_stats stats = [line] ∧
        ∃ a b, line = a ++ toString stats.abandoned_commits.length ++ b) := by
  constructor
  · intro h
    simp [print_git_import_stats, h]
  · intro h
    have hne : stats.abandoned_commits.isEmpty = false := by
      cases hac : stats.abandoned_commits with
      | nil => exact absurd hac h
      | cons x xs => rfl
    refine ⟨"Abandoned " ++ toString stats.abandoned_commits.length ++
        " commits that are no longer reachable.", ?_,
      "Abandoned ", " commits that are no longer reachable.", rfl⟩
    unfold print_git_import_stats
    rw [hne]
    simp

/-- Witness for C8: three abandoned commits produce exactly one line
containing `"3"`. -/
theorem import_stats_one_line_witness :
    ∃ line, print_git_import_stats ⟨[1, 2, 3]⟩ = [line] ∧
      ∃ a b, line = a ++ toString (3 : Nat) ++ b :=
  (import_stats_one_line ⟨[1, 2, 3]⟩).2 (by decide)

/-! ## Path expander (`expand_git_path`) -/

/-- `str::strip_prefix` on strings, modelled on the character lists. -/
def stripPrefixStr (pre s : String) : Option String :=
  if s.data.take pre.data.length = pre.data then
    some ⟨s.data.drop pre.data.length⟩
  else none

/-- `expand_git_path`: when the path starts with `"~/"` and the `HOME`
environment variable is set (`home` models `std::env::var("HOME").ok()`),
replace the prefix by joining the home directory with the remainder;
in every other case the path is returned unchanged. -/
def expand_git_path (home : Option String) (path_str : String) : String :=
  match stripPrefixStr "~/" path_str, home with
  | some remainder, some home_dir_str => pathJoin home_dir_str remainder
  | _, _ => path_str

/-- Claim C9: a path starting with `"~/"` is expanded to the home directory
joined with the remainder when `HOME` is set; with `HOME` unset, or without
the `"~/"` prefix, the path is returned unchanged; the operation is total. -/
theorem expand_git_path_spec :
    (∀ home rest, expand_git_path (some home) ("~/" ++ rest) =
      pathJoin home rest) ∧
    (∀ p, expand_git_path none p = p) ∧
    (∀ home p, stripPrefixStr "~/" p = none → expand_git_path home p = p) := by
  refine ⟨fun home rest => ?_, fun p => ?_, fun home p hp => ?_⟩
  · have hstrip : stripPrefixStr "~/" ("~/" ++ rest) = some rest := by
      unfold stripPrefixStr
      rw [String.data_append]
      have h2 : ("~/" : String).data = ['~', '/'] := rfl
      rw [h2]
      simp
    unfold expand_git_path
    rw [hstrip]
  · unfold expand_git_path
    cases stripPrefixStr "~/" p <;> rfl
  · unfold expand_git_path
    rw [hp]

/-- Witness for C9: `"/etc/gitconfig"` has no `"~/"` prefix and is returned
unchanged even with `HOME` set. -/
theorem expand_git_path_spec_witness :
    expand_git_path (some "/home/u") "/etc/gitconfig" = "/etc/gitconfig" :=
  expand_git_path_spec.2.2 (some "/home/u") "/etc/gitconfig" (by decide)

end GitUtil
